import Mathlib

/-!
Verification development for the PREVENT-AD dataset download script (BHD.py).

The script materializes a remote imaging dataset onto local storage. This
file gives a shallow embedding of its core logic:

* `process_api_get` — the resilient GET executor (BHD.py lines 246-305),
  modelled as a fold over a finite prefix of the infinite attempt stream:
  `none` means the loop is still running after consuming the prefix.
* `get_file` — the cache-validated downloader (lines 157-243), with the
  filesystem as an association list from path to contents and the server
  as an oracle from request headers to the response the GET executor
  eventually returned.
* `download_visit_files` — the per-visit image/QC download loop of
  `process_minc_func` (lines 388-404), wired to `get_file`.
* `process_minc_manifest` / `process_minc_dirs` / `process_minc_files` —
  flat-schema manifest construction and materialization (lines 334-386).
* `candidate_json_fields` — the fixed projection written to
  `candidate.json` (lines 365-376).
* `fold_session` / `fold_image` / `create_bids_candidates_list` — the
  categorized-schema manifest fold (lines 534-579).
* `run_dispatch` — the orchestrator's candidate-filter step (lines 711-721).
* `candidate_argument_checker` — the CLI CandID checker (lines 582-600).
-/

set_option autoImplicit false

/-- An HTTP response as the script sees it: status code, body bytes
(modelled as a string), and a header mapping. -/
structure Response where
  status_code : Nat
  content : String
  headers : List (String × String)
deriving Repr, DecidableEq

/-- One iteration of the retry loop in `process_api_get` either raises a
transport-level error (ConnectTimeout / ConnectionError) or yields a
response. -/
inductive Attempt where
  | transport_error
  | response (r : Response)
deriving Repr, DecidableEq

/-- Shallow embedding of `process_api_get` (BHD.py lines 246-305): the
infinite `while True` loop, run over a finite prefix of attempt outcomes.
A transport error is caught and the loop continues; a response breaks the
loop only when its status code is in `expected_codes`, otherwise the loop
falls through to the next iteration. `none` means the loop had not
returned after the given attempts. -/
def process_api_get (expected_codes : List Nat) : List Attempt → Option Response
  | [] => none
  | .transport_error :: rest => process_api_get expected_codes rest
  | .response r :: rest =>
      if r.status_code ∈ expected_codes then some r else process_api_get expected_codes rest

/-- A 404 response used in concrete runs. -/
def resp404 : Response := ⟨404, "not found", []⟩

/-- A 200 response used in concrete runs. -/
def resp200 : Response := ⟨200, "body", []⟩

/-- C1 counterexample: the claim says a response whose status code is NOT
in the expected set is returned to the caller as a final result without
being retried. At the concrete attempt stream [404 response, 200 response]
with expected set \x7b200\x7d, the executor does not return the 404: it
retries and returns the later 200 response; and on the stream consisting
of the 404 response alone it has returned nothing at all (still looping). -/
theorem process_api_get_unexpected_status_not_returned :
    process_api_get [200] [.response resp404, .response resp200] = some resp200 ∧
    some resp200 ≠ some resp404 ∧
    process_api_get [200] [.response resp404] = none := by
  refine ⟨by decide, by decide, by decide⟩

/-- C1 amended: transport-level failures AND responses whose status code is
outside the expected set are both retried indefinitely with the identical
request; the executor returns exactly the first response whose status code
is in the expected set. -/
theorem process_api_get_retries_until_expected :
    (∀ (expected : List Nat) (attempts : List Attempt) (r : Response),
      process_api_get expected attempts = some r → r.status_code ∈ expected) ∧
    (∀ (expected : List Nat) (rest : List Attempt),
      process_api_get expected (.transport_error :: rest) = process_api_get expected rest) ∧
    (∀ (expected : List Nat) (r : Response) (rest : List Attempt),
      r.status_code ∉ expected →
      process_api_get expected (.response r :: rest) = process_api_get expected rest) ∧
    (∀ (expected : List Nat) (r : Response) (rest : List Attempt),
      r.status_code ∈ expected →
      process_api_get expected (.response r :: rest) = some r) := by
  refine ⟨?_, ?_, ?_, ?_⟩
  · intro expected attempts
    induction attempts with
    | nil => intro r h; simp [process_api_get] at h
    | cons a rest ih =>
      intro r h
      cases a with
      | transport_error => exact ih r h
      | response r0 =>
        by_cases hmem : r0.status_code ∈ expected
        · simp [process_api_get, hmem] at h
          subst h; exact hmem
        · simp [process_api_get, hmem] at h
          exact ih r h
  · intro expected rest; rfl
  · intro expected r rest h; simp [process_api_get, h]
  · intro expected r rest h; simp [process_api_get, h]

/-- C1 amended, witness: applying the theorem at a concrete input. -/
theorem process_api_get_retries_until_expected_witness :
    process_api_get [200] [.response resp200] = some resp200 ∧
    resp200.status_code ∈ [200] := by
  refine ⟨process_api_get_retries_until_expected.2.2.2 [200] resp200 [] (by decide), ?_⟩
  exact process_api_get_retries_until_expected.1 [200] [.response resp200] resp200 (by decide)

/-- Ordered association list used to model both the local filesystem
(path to file contents) and Python dicts (insertion-ordered key/value
maps). -/
abbrev Dict (α : Type) := List (String × α)

/-- Lookup of the first binding of a key. -/
def alLookup {α : Type} : Dict α → String → Option α
  | [], _ => none
  | (k0, v) :: rest, k => if k0 = k then some v else alLookup rest k

/-- Python-dict style assignment: an existing key is overwritten in place,
a new key is appended at the end (insertion order preserved). For the
filesystem model this is the effect of `open(path, "w")`. -/
def alUpdate {α : Type} : Dict α → String → α → Dict α
  | [], k, v => [(k, v)]
  | (k0, v0) :: rest, k, v =>
      if k0 = k then (k, v) :: rest else (k0, v0) :: alUpdate rest k v

/-- Removal of a key: the effect of `os.remove(path)` / `del`. -/
def alRemove {α : Type} : Dict α → String → Dict α
  | [], _ => []
  | (k0, v0) :: rest, k =>
      if k0 = k then alRemove rest k else (k0, v0) :: alRemove rest k

theorem alLookup_alUpdate_self {α : Type} (m : Dict α) (k : String) (v : α) :
    alLookup (alUpdate m k v) k = some v := by
  induction m with
  | nil => simp [alUpdate, alLookup]
  | cons p rest ih =>
    by_cases h : p.1 = k
    · simp [alUpdate, h, alLookup]
    · simp [alUpdate, h, alLookup, ih]

theorem alLookup_alUpdate_other {α : Type} (m : Dict α) (k k0 : String) (v : α)
    (h : k0 ≠ k) : alLookup (alUpdate m k v) k0 = alLookup m k0 := by
  induction m with
  | nil => simp [alUpdate, alLookup, Ne.symm h]
  | cons p rest ih =>
    by_cases hp : p.1 = k
    · simp [alUpdate, hp, alLookup, Ne.symm h]
    · simp [alUpdate, hp, alLookup, ih]

theorem alLookup_alRemove_self {α : Type} (m : Dict α) (k : String) :
    alLookup (alRemove m k) k = none := by
  induction m with
  | nil => simp [alRemove, alLookup]
  | cons p rest ih =>
    by_cases h : p.1 = k
    · simp [alRemove, h, ih]
    · simp [alRemove, h, alLookup, ih]

/-- The local filesystem: a map from absolute path to file contents. -/
abbrev FS := Dict String

/-- The two return values of `get_file`: the string "New" (bytes were
written this call) or "Current" (cache hit confirmed by a 304). -/
inductive Outcome where
  | New
  | Current
deriving Repr, DecidableEq

/-- One call made to `process_api_get` by `get_file`: the extra headers
passed and the expected status codes. -/
structure ApiCall where
  headers : List (String × String)
  expected_codes : List Nat
deriving Repr, DecidableEq

/-- Result of a `get_file` call. `ok` carries the returned outcome, the
filesystem after the call, and the log of GET-executor calls made; `err`
models an uncaught Python exception, carrying the filesystem state at the
moment it was raised. -/
inductive GetFileResult where
  | ok (outcome : Outcome) (fs : FS) (calls : List ApiCall)
  | err (msg : String) (fs : FS) (calls : List ApiCall)
deriving Repr, DecidableEq

/-- The sidecar path `download_location + "." + filename + ".etag"`
(BHD.py lines 187, 189, 216, 235). -/
def etagPath (download_location filename : String) : String :=
  download_location ++ "." ++ filename ++ ".etag"

/-- The body path `download_location + filename` (BHD.py line 229). -/
def bodyPath (download_location filename : String) : String :=
  download_location ++ filename

/-- Tail of `get_file` after a response has been obtained (BHD.py lines
228-243): write the body to `download_location + filename`, then, when
`etag_checking` is set, write `server_response.headers['ETag']` to the
sidecar — an unguarded dict access that raises KeyError when the response
carries no ETag header, after the body write has already happened. -/
def get_file_write (server_response : Response) (fs : FS)
    (download_location filename : String) (etag_checking : Bool)
    (calls : List ApiCall) : GetFileResult :=
  let fs1 := alUpdate fs (bodyPath download_location filename) server_response.content
  if etag_checking then
    match alLookup server_response.headers "ETag" with
    | some e => .ok .New (alUpdate fs1 (etagPath download_location filename) e) calls
    | none => .err "KeyError: ETag" fs1 calls
  else .ok .New fs1 calls

/-- Shallow embedding of `get_file` (BHD.py lines 157-243). The `server`
oracle maps the extra request headers to the response `process_api_get`
eventually returned for this URL. When `etag_checking` is set and the
sidecar exists, a conditional GET is issued with the stored token and
expected codes [200, 304]; a 304 returns Current at once with no write;
otherwise the stale sidecar is removed and the kept 200 response is
written out (no second request). With no checking or no sidecar, a plain
GET with expected codes [200] is issued and its body written; the call
returns New whenever it reaches the write. -/
def get_file (server : List (String × String) → Response) (fs : FS)
    (download_location filename : String) (etag_checking : Bool) : GetFileResult :=
  if etag_checking && (alLookup fs (etagPath download_location filename)).isSome then
    let etag := (alLookup fs (etagPath download_location filename)).getD ""
    let server_response := server [("If-None-Match", etag)]
    let call1 : ApiCall := ⟨[("If-None-Match", etag)], [200, 304]⟩
    if server_response.status_code = 304 then
      .ok .Current fs [call1]
    else
      get_file_write server_response (alRemove fs (etagPath download_location filename))
        download_location filename etag_checking [call1]
  else
    get_file_write (server []) fs download_location filename etag_checking [⟨[], [200]⟩]

/-- The body path and the sidecar path of one `get_file` call never
coincide (they differ in length by the "." and ".etag" decorations). -/
theorem bodyPath_ne_etagPath (dl fn : String) : bodyPath dl fn ≠ etagPath dl fn := by
  intro h
  have h1 := congrArg String.length h
  simp only [bodyPath, etagPath, String.length_append] at h1
  have h2 : String.length "." = 1 := rfl
  have h3 : String.length ".etag" = 5 := rfl
  omega

/-- C4: with cache validation enabled, an existing sidecar token and a
server response of 304, `get_file` returns Current, the filesystem is
returned exactly as it was (no body write, sidecar neither modified nor
deleted), and the single request made was the conditional GET carrying the
stored token with expected codes [200, 304]. -/
theorem get_file_304_returns_current_untouched :
    ∀ (server : List (String × String) → Response) (fs : FS) (dl fn etag : String),
      alLookup fs (etagPath dl fn) = some etag →
      (server [("If-None-Match", etag)]).status_code = 304 →
      get_file server fs dl fn true =
        .ok .Current fs [⟨[("If-None-Match", etag)], [200, 304]⟩] := by
  intro server fs dl fn etag h1 h2
  simp [get_file, h1, h2]

/-- C4 witness: a concrete filesystem holding a sidecar and a server that
answers 304 to the conditional request. -/
theorem get_file_304_returns_current_untouched_witness :
    get_file (fun _ => ⟨304, "", []⟩) [("d/.f.etag", "tok")] "d/" "f" true =
      .ok .Current [("d/.f.etag", "tok")] [⟨[("If-None-Match", "tok")], [200, 304]⟩] :=
  get_file_304_returns_current_untouched (fun _ => ⟨304, "", []⟩)
    [("d/.f.etag", "tok")] "d/" "f" "tok" (by decide) (by decide)

/-- C5: `get_file` returns Current only on a confirmed 304 on the
conditional path (and then leaves the filesystem unchanged); whenever no
sidecar token file exists or cache validation is disabled, it performs the
unconditional GET with expected codes [200], writes the response body to
disk and returns New, regardless of whether the remote content changed. -/
theorem get_file_new_unless_304 :
    (∀ (server : List (String × String) → Response) (fs : FS) (dl fn : String)
        (ec : Bool) (o : Outcome) (fs2 : FS) (calls : List ApiCall),
      get_file server fs dl fn ec = .ok o fs2 calls → o = .Current →
      ec = true ∧ ∃ etag, alLookup fs (etagPath dl fn) = some etag ∧
        (server [("If-None-Match", etag)]).status_code = 304 ∧ fs2 = fs) ∧
    (∀ (server : List (String × String) → Response) (fs : FS) (dl fn : String)
        (ec : Bool),
      (ec = false ∨ alLookup fs (etagPath dl fn) = none) →
      (ec = true → alLookup (server []).headers "ETag" ≠ none) →
      ∃ fs2, get_file server fs dl fn ec = .ok .New fs2 [⟨[], [200]⟩] ∧
        alLookup fs2 (bodyPath dl fn) = some ((server []).content)) := by
  constructor
  · intro server fs dl fn ec o fs2 calls h ho
    subst ho
    cases ec with
    | false =>
      simp [get_file, get_file_write] at h
    | true =>
      cases hl : alLookup fs (etagPath dl fn) with
      | none =>
        simp [get_file, hl, get_file_write] at h
        cases hE : alLookup (server []).headers "ETag" with
        | none => simp [hE] at h
        | some e => simp [hE] at h
      | some etag =>
        by_cases h304 : (server [("If-None-Match", etag)]).status_code = 304
        · refine ⟨rfl, etag, rfl, h304, ?_⟩
          simp [get_file, hl, h304] at h
          exact h.1.symm
        · simp [get_file, hl, h304, get_file_write] at h
          cases hE : alLookup (server [("If-None-Match", etag)]).headers "ETag" with
          | none => simp [hE] at h
          | some e => simp [hE] at h
  · intro server fs dl fn ec hor hE
    cases ec with
    | false =>
      refine ⟨alUpdate fs (bodyPath dl fn) ((server []).content), ?_, ?_⟩
      · simp [get_file, get_file_write]
      · exact alLookup_alUpdate_self fs (bodyPath dl fn) ((server []).content)
    | true =>
      have hl : alLookup fs (etagPath dl fn) = none := by
        cases hor with
        | inl h => exact absurd h (by simp)
        | inr h => exact h
      cases hEx : alLookup (server []).headers "ETag" with
      | none => exact absurd hEx (hE rfl)
      | some e =>
        refine ⟨alUpdate (alUpdate fs (bodyPath dl fn) ((server []).content))
          (etagPath dl fn) e, ?_, ?_⟩
        · simp [get_file, hl, get_file_write, hEx]
        · rw [alLookup_alUpdate_other _ _ _ _ (bodyPath_ne_etagPath dl fn)]
          exact alLookup_alUpdate_self fs (bodyPath dl fn) ((server []).content)

/-- C5 witness: with no sidecar present and a 200 response carrying an
ETag header, the call returns New and the body is on disk. -/
theorem get_file_new_unless_304_witness :
    ∃ fs2, get_file (fun _ => ⟨200, "payload", [("ETag", "tok2")]⟩) [] "d/" "f" true =
        .ok .New fs2 [⟨[], [200]⟩] ∧
      alLookup fs2 (bodyPath "d/" "f") = some "payload" :=
  get_file_new_unless_304.2 (fun _ => ⟨200, "payload", [("ETag", "tok2")]⟩) [] "d/" "f" true
    (Or.inr rfl) (fun _ => by decide)

/-- C9: on any `get_file` call with cache validation enabled that reaches
the body write, the body file is written first and the sidecar write then
performs the unguarded header access `server_response.headers['ETag']`: if
that 200 response carries no ETag header, the call raises KeyError AFTER
the body file is on disk, leaving a body present with no sidecar (the old
sidecar, when one existed, was already deleted). Both entry branches are
covered: no sidecar (unconditional GET) and stale sidecar (conditional GET
answered with a non-304). -/
theorem get_file_missing_etag_header_partial_write :
    (∀ (server : List (String × String) → Response) (fs : FS) (dl fn : String),
      alLookup fs (etagPath dl fn) = none →
      alLookup (server []).headers "ETag" = none →
      ∃ fs2, get_file server fs dl fn true = .err "KeyError: ETag" fs2 [⟨[], [200]⟩] ∧
        alLookup fs2 (bodyPath dl fn) = some ((server []).content) ∧
        alLookup fs2 (etagPath dl fn) = none) ∧
    (∀ (server : List (String × String) → Response) (fs : FS) (dl fn etag : String),
      alLookup fs (etagPath dl fn) = some etag →
      (server [("If-None-Match", etag)]).status_code ≠ 304 →
      alLookup (server [("If-None-Match", etag)]).headers "ETag" = none →
      ∃ fs2, get_file server fs dl fn true =
          .err "KeyError: ETag" fs2 [⟨[("If-None-Match", etag)], [200, 304]⟩] ∧
        alLookup fs2 (bodyPath dl fn) = some ((server [("If-None-Match", etag)]).content) ∧
        alLookup fs2 (etagPath dl fn) = none) := by
  constructor
  · intro server fs dl fn hl hE
    refine ⟨alUpdate fs (bodyPath dl fn) ((server []).content), ?_, ?_, ?_⟩
    · simp [get_file, hl, get_file_write, hE]
    · exact alLookup_alUpdate_self fs (bodyPath dl fn) ((server []).content)
    · rw [alLookup_alUpdate_other _ _ _ _ (Ne.symm (bodyPath_ne_etagPath dl fn))]
      exact hl
  · intro server fs dl fn etag hl h304 hE
    refine ⟨alUpdate (alRemove fs (etagPath dl fn)) (bodyPath dl fn)
      ((server [("If-None-Match", etag)]).content), ?_, ?_, ?_⟩
    · simp [get_file, hl, h304, get_file_write, hE]
    · exact alLookup_alUpdate_self _ (bodyPath dl fn) _
    · rw [alLookup_alUpdate_other _ _ _ _ (Ne.symm (bodyPath_ne_etagPath dl fn))]
      exact alLookup_alRemove_self fs (etagPath dl fn)

/-- C9 witness: a 200 response without an ETag header against a filesystem
with no sidecar: the call errors with the body already written and no
sidecar present. -/
theorem get_file_missing_etag_header_partial_write_witness :
    ∃ fs2, get_file (fun _ => ⟨200, "payload", []⟩) [] "d/" "f" true =
        .err "KeyError: ETag" fs2 [⟨[], [200]⟩] ∧
      alLookup fs2 (bodyPath "d/" "f") = some "payload" ∧
      alLookup fs2 (etagPath "d/" "f") = none :=
  get_file_missing_etag_header_partial_write.1 (fun _ => ⟨200, "payload", []⟩) [] "d/" "f"
    (by decide) (by decide)

/-- The per-visit download location `base_directory + "%s/%s/" % (CandID,
visit)` (BHD.py lines 394, 401). -/
def minc_dl (base candID visit : String) : String :=
  base ++ candID ++ "/" ++ visit ++ "/"

/-- The image API request `'/candidates/%s/%s/images/%s'` (BHD.py line 393). -/
def minc_img_request (candID visit session_file : String) : String :=
  "/candidates/" ++ candID ++ "/" ++ visit ++ "/images/" ++ session_file

/-- One `get_file` call performed by the download loop of
`process_minc_func`: a parent image fetch (with its cache-validation flag
and returned outcome) or a quality-control artifact fetch. -/
inductive FetchLog where
  | image (filename : String) (etag_checking : Bool) (outcome : Outcome)
  | qc (filename : String) (etag_checking : Bool)
deriving Repr, DecidableEq

/-- Shallow embedding of the download loop of `process_minc_func` (BHD.py
lines 388-404) for one visit: for each filename, fetch the image with
cache validation; exactly when that call returns New, additionally fetch
the companion QC artifact (filename + ".qc.json", request + "/qc") into
the same directory without cache validation. The `server` oracle maps an
API request and its extra headers to the response the GET executor
returned. An uncaught `get_file` exception aborts the loop. -/
def download_visit_files (server : String → List (String × String) → Response)
    (base candID visit : String) (fs : FS) :
    List String → Except (String × FS) (FS × List FetchLog)
  | [] => .ok (fs, [])
  | session_file :: rest =>
    match get_file (server (minc_img_request candID visit session_file)) fs
        (minc_dl base candID visit) session_file true with
    | .err m fs1 _ => .error (m, fs1)
    | .ok o fs1 _ =>
      if o = .New then
        match get_file (server (minc_img_request candID visit session_file ++ "/qc")) fs1
            (minc_dl base candID visit) (session_file ++ ".qc.json") false with
        | .err m fs2 _ => .error (m, fs2)
        | .ok _ fs2 _ =>
          match download_visit_files server base candID visit fs2 rest with
          | .error e => .error e
          | .ok (fs3, log) =>
              .ok (fs3, .image session_file true .New ::
                .qc (session_file ++ ".qc.json") false :: log)
      else
        match download_visit_files server base candID visit fs1 rest with
        | .error e => .error e
        | .ok (fs3, log) => .ok (fs3, .image session_file true o :: log)

/-- Well-formedness of a fetch log with respect to the QC-gating policy:
every parent image fetched with cache validation and returning New is
followed by exactly one QC fetch, of the parent filename + ".qc.json",
without cache validation; a parent returning Current is followed by no QC
fetch. -/
def logOk : List FetchLog → Bool
  | [] => true
  | .image f true .New :: .qc q false :: rest => (q == f ++ ".qc.json") && logOk rest
  | .image _ true .Current :: .qc _ _ :: _ => false
  | .image _ true .Current :: rest => logOk rest
  | _ => false

theorem logOk_new_cons (f : String) (log : List FetchLog) (h : logOk log = true) :
    logOk (.image f true .New :: .qc (f ++ ".qc.json") false :: log) = true := by
  simp [logOk, h]

theorem logOk_current_cons (f : String) (log : List FetchLog) (h : logOk log = true) :
    logOk (.image f true .Current :: log) = true := by
  cases log with
  | nil => rfl
  | cons hd tl =>
    cases hd with
    | image g e o => simpa [logOk] using h
    | qc g e => simp [logOk] at h

/-- C6: every successful run of the per-visit download loop produces a
fetch log in which the companion QC artifact is fetched, without cache
validation, exactly once after each parent image fetch that returned New
and zero times after a parent image fetch that returned Current. -/
theorem download_visit_files_qc_gating :
    ∀ (server : String → List (String × String) → Response) (base candID visit : String)
      (files : List String) (fs fs2 : FS) (log : List FetchLog),
      download_visit_files server base candID visit fs files = .ok (fs2, log) →
      logOk log = true := by
  intro server base candID visit files
  induction files with
  | nil =>
    intro fs fs2 log h
    simp [download_visit_files] at h
    rw [h.2]
    rfl
  | cons f rest ih =>
    intro fs fs2 log h
    simp only [download_visit_files] at h
    split at h
    · simp at h
    · rename_i o fs1 calls heq
      split at h
      · rename_i ho
        subst ho
        split at h
        · simp at h
        · rename_i o2 fs2x calls2 heq2
          split at h
          · simp at h
          · rename_i fs3 log3 heq3
            simp at h
            rw [← h.2]
            exact logOk_new_cons f log3 (ih _ _ _ heq3)
      · rename_i ho
        have ho2 : o = .Current := by
          cases o
          · exact absurd rfl ho
          · rfl
        subst ho2
        split at h
        · simp at h
        · rename_i fs3 log3 heq3
          simp at h
          rw [← h.2]
          exact logOk_current_cons f log3 (ih _ _ _ heq3)

/-- Concrete server for the QC-gating witness run: answers 304 to the
conditional request carrying the stored token "tag1" and a fresh 200
otherwise. -/
def qcGatingServer : String → List (String × String) → Response :=
  fun _ hdrs =>
    if hdrs = [("If-None-Match", "tag1")] then ⟨304, "", []⟩
    else ⟨200, "data", [("ETag", "tag2")]⟩

/-- C6 witness: a two-file visit where the first image comes back New (QC
fetched once, without cache validation) and the second is Current (no QC
fetch). -/
theorem download_visit_files_qc_gating_witness :
    logOk [FetchLog.image "a.mnc" true .New, FetchLog.qc "a.mnc.qc.json" false,
      FetchLog.image "b.mnc" true .Current] = true :=
  download_visit_files_qc_gating qcGatingServer "" "1200000" "V1" ["a.mnc", "b.mnc"]
    [("1200000/V1/.b.mnc.etag", "tag1")]
    [("1200000/V1/.b.mnc.etag", "tag1"), ("1200000/V1/a.mnc", "data"),
      ("1200000/V1/.a.mnc.etag", "tag2"), ("1200000/V1/a.mnc.qc.json", "data")]
    [FetchLog.image "a.mnc" true .New, FetchLog.qc "a.mnc.qc.json" false,
      FetchLog.image "b.mnc" true .Current]
    rfl

/-- Static metadata of a flat-schema candidate as obtained from the
candidates list (values modelled as strings). -/
structure MincCandidate where
  CandID : String
  PSCID : String
  Site : String
  DoB : String
  Gender : String
  Language : String
  Project : String
deriving Repr, DecidableEq

/-- One visit of a flat-schema candidate after manifest construction: the
visit label, the Meta part of the session JSON, and the accumulated image
filenames. -/
structure MincVisit where
  name : String
  meta : String
  filenames : List String
deriving Repr, DecidableEq

/-- Flat-schema manifest construction of `process_minc_func` (BHD.py lines
334-358): for each visit returned by the API, accumulate the session JSON
and the image filenames, then drop the visits whose Filenames list is
empty. `api_meta` and `api_images` are the per-visit API query results. -/
def process_minc_manifest (api_visits : List String) (api_meta : String → String)
    (api_images : String → List String) : List MincVisit :=
  (api_visits.map (fun v => ⟨v, api_meta v, api_images v⟩)).filter
    (fun vd => !vd.filenames.isEmpty)

/-- The directories `process_minc_func` ensures exist (BHD.py lines
360-363 and 378-382): the candidate directory, then one directory per
retained visit. -/
def process_minc_dirs (base candID : String) (visits : List MincVisit) : List String :=
  (base ++ "/" ++ candID) :: visits.map (fun vd => base ++ "/" ++ candID ++ "/" ++ vd.name)

/-- The seven properties written to `candidate.json` (BHD.py lines
365-376), in the order of the tuple in the comprehension. -/
def candidate_json_fields (c : MincCandidate) : List (String × String) :=
  [("CandID", c.CandID), ("PSCID", c.PSCID), ("Site", c.Site), ("DoB", c.DoB),
    ("Gender", c.Gender), ("Language", c.Language), ("Project", c.Project)]

/-- The single-quote character used by Python's `str` on a dict. -/
def pyQuote : String := String.singleton (Char.ofNat 39)

/-- The literal text written to `candidate.json`: Python's `str` of the
seven-key dict comprehension (values modelled as strings). -/
def candidate_json (c : MincCandidate) : String :=
  "\x7b" ++ String.intercalate ", "
    ((candidate_json_fields c).map
      (fun p => pyQuote ++ p.1 ++ pyQuote ++ ": " ++ pyQuote ++ p.2 ++ pyQuote)) ++ "\x7d"

/-- The files `process_minc_func` writes for a candidate besides the
downloads (BHD.py lines 365-386): `candidate.json` under the candidate
directory and one `session.json` per retained visit. -/
def process_minc_files (base : String) (c : MincCandidate) (visits : List MincVisit) :
    List (String × String) :=
  (base ++ "/" ++ c.CandID ++ "/candidate.json", candidate_json c) ::
    visits.map (fun vd => (base ++ "/" ++ c.CandID ++ "/" ++ vd.name ++ "/session.json", vd.meta))

/-- C2 concrete candidate used in the counterexample. -/
def sampleCandidate : MincCandidate :=
  ⟨"1234567", "MTL0001", "SiteA", "1950-01-01", "F", "EN", "PAD"⟩

/-- C2 counterexample: the record serialized to `candidate.json` carries
SEVEN fields, not the six \x7bid, site, dob, gender, language, project\x7d
the claim states: the extra key "PSCID" is present and corresponds to none
of the six claimed fields. -/
theorem candidate_json_has_extra_field :
    ((candidate_json_fields sampleCandidate).map Prod.fst).length = 7 ∧
    "PSCID" ∈ (candidate_json_fields sampleCandidate).map Prod.fst ∧
    "PSCID" ∉ ["CandID", "Site", "DoB", "Gender", "Language", "Project"] ∧
    process_minc_files "" sampleCandidate [] =
      [("/1234567/candidate.json", candidate_json sampleCandidate)] := by
  refine ⟨by decide, by decide, by decide, rfl⟩

/-- C2 amended: for every candidate, `candidate.json` contains a literal
text serialization of exactly the seven fields CandID, PSCID, Site, DoB,
Gender, Language, Project, in that order, and no other fields. -/
theorem candidate_json_fields_exact :
    ∀ c : MincCandidate, (candidate_json_fields c).map Prod.fst =
      ["CandID", "PSCID", "Site", "DoB", "Gender", "Language", "Project"] :=
  fun _ => rfl

/-- C7: after flat-schema manifest construction the retained visit map
contains only visits with at least one filename; and for a candidate whose
every visit has zero filenames, materialization creates the candidate
directory and writes `candidate.json` but creates no visit subdirectory
and writes no `session.json`. -/
theorem process_minc_empty_visit_filtering :
    ∀ (api_visits : List String) (api_meta : String → String)
      (api_images : String → List String) (base : String) (c : MincCandidate),
      (∀ vd ∈ process_minc_manifest api_visits api_meta api_images, vd.filenames ≠ []) ∧
      ((∀ v ∈ api_visits, api_images v = []) →
        process_minc_dirs base c.CandID (process_minc_manifest api_visits api_meta api_images) =
          [base ++ "/" ++ c.CandID] ∧
        process_minc_files base c (process_minc_manifest api_visits api_meta api_images) =
          [(base ++ "/" ++ c.CandID ++ "/candidate.json", candidate_json c)]) := by
  intro api_visits api_meta api_images base c
  constructor
  · intro vd hvd
    obtain ⟨-, h2⟩ := List.mem_filter.mp hvd
    intro hnil
    rw [hnil] at h2
    simp at h2
  · intro hall
    have hm : process_minc_manifest api_visits api_meta api_images = [] := by
      apply List.filter_eq_nil_iff.mpr
      intro vd hvd
      simp only [List.mem_map] at hvd
      obtain ⟨v, hv, rfl⟩ := hvd
      simp [hall v hv]
    rw [hm]
    exact ⟨rfl, rfl⟩

/-- C7 witness: a candidate with two visits, both without images: only the
candidate directory and `candidate.json` are produced. -/
theorem process_minc_empty_visit_filtering_witness :
    process_minc_dirs "" sampleCandidate.CandID
        (process_minc_manifest ["V1", "V2"] (fun _ => "meta") (fun _ => [])) =
      ["/1234567"] ∧
    process_minc_files "" sampleCandidate
        (process_minc_manifest ["V1", "V2"] (fun _ => "meta") (fun _ => [])) =
      [("/1234567/candidate.json", candidate_json sampleCandidate)] := by
  have h := (process_minc_empty_visit_filtering ["V1", "V2"] (fun _ => "meta")
    (fun _ => []) "" sampleCandidate).2 (fun v _ => rfl)
  exact h

/-- One record of the bulk manifest's SessionFiles list (BHD.py lines
538-555): candidate, visit, and the two direct file references. -/
structure SessionRecord where
  Candidate : String
  Visit : String
  TsvLink : String
  JsonLink : String
deriving Repr, DecidableEq

/-- One record of the bulk manifest's Images list (BHD.py lines 557-573).
`fields` is the full JSON property list of the record in insertion order;
the three metadata accessors replicate `image['Candidate']`,
`image['Visit']` and `image['Subfolder']`. -/
structure ImageRecord where
  Candidate : String
  Visit : String
  Subfolder : String
  fields : List (String × String)
deriving Repr, DecidableEq

/-- Per-visit record of the categorized schema: direct file references
plus a category-to-file-references map. -/
structure VisitRecord where
  Files : List String
  Folders : Dict (List String)
deriving Repr, DecidableEq

/-- A candidate of the categorized schema: CandID plus the visit map. -/
structure BidsCandidate where
  CandID : String
  Visits : Dict VisitRecord
deriving Repr, DecidableEq

/-- The Link-type properties of an image record (BHD.py lines 567-571):
every property whose key is not in the fixed metadata exclusion set, in
record order. -/
def image_links (img : ImageRecord) : List String :=
  (img.fields.filter
    (fun p => !(["Candidate", "PSCID", "Visit", "LorisScanType", "Subfolder"].contains p.1))).map
    Prod.snd

/-- Folding one SessionFiles record into the candidates map (BHD.py lines
538-555): an unseen candidate is created with the visit bound to a fresh
VisitRecord; for a seen candidate the visit key is assigned a fresh
VisitRecord (an existing binding for the same visit is overwritten). -/
def fold_session (m : Dict BidsCandidate) (s : SessionRecord) : Dict BidsCandidate :=
  match alLookup m s.Candidate with
  | none =>
      alUpdate m s.Candidate
        ⟨s.Candidate, [(s.Visit, ⟨[s.TsvLink, s.JsonLink], []⟩)]⟩
  | some cand =>
      alUpdate m s.Candidate
        ⟨cand.CandID, alUpdate cand.Visits s.Visit ⟨[s.TsvLink, s.JsonLink], []⟩⟩

/-- Folding one Images record into the candidates map (BHD.py lines
557-573): the candidate's visit's Folders map gets the record's category
bound lazily to an empty list on first sight, then the record's link
properties are appended to that category's list. A record whose candidate
or visit is absent raises KeyError. -/
def fold_image (m : Dict BidsCandidate) (img : ImageRecord) :
    Except String (Dict BidsCandidate) :=
  match alLookup m img.Candidate with
  | none => .error "KeyError: Candidate"
  | some cand =>
    match alLookup cand.Visits img.Visit with
    | none => .error "KeyError: Visit"
    | some vr =>
      let folders0 :=
        if (alLookup vr.Folders img.Subfolder).isSome then vr.Folders
        else alUpdate vr.Folders img.Subfolder []
      let links := (alLookup folders0 img.Subfolder).getD []
      let folders1 := alUpdate folders0 img.Subfolder (links ++ image_links img)
      .ok (alUpdate m img.Candidate
        ⟨cand.CandID, alUpdate cand.Visits img.Visit ⟨vr.Files, folders1⟩⟩)

/-- The categorized-schema manifest fold (BHD.py lines 534-579): fold all
SessionFiles records, then all Images records, and return the list of
candidate objects in insertion order. -/
def create_bids_candidates_list (sessions : List SessionRecord)
    (images : List ImageRecord) : Except String (List BidsCandidate) :=
  let m := sessions.foldl fold_session []
  (images.foldl (fun acc img => acc.bind (fun mm => fold_image mm img)) (Except.ok m)).map
    (fun mm => mm.map Prod.snd)

/-- C3 counterexample: two SessionFiles records sharing the (entity,
visit) pair ("100", "V1"): folding them does NOT merge — the second
record's VisitRecord replaces the first's, and the first record's file
reference "a.tsv" is absent from the result. -/
theorem fold_session_duplicate_overwrites :
    create_bids_candidates_list
      [⟨"100", "V1", "a.tsv", "a.json"⟩, ⟨"100", "V1", "b.tsv", "b.json"⟩] [] =
      .ok [⟨"100", [("V1", ⟨["b.tsv", "b.json"], []⟩)]⟩] ∧
    "a.tsv" ∉ (["b.tsv", "b.json"] : List String) := by
  refine ⟨rfl, by decide⟩

/-- C3 amended: an Images (category) record for an existing (entity,
visit) pair merges into that pair's single VisitRecord — the Files list is
preserved and the record's links are APPENDED to the category's existing
list (created empty on first sight), so a category seen in two image
records accumulates both; whereas a SessionFiles (visit) record always
binds the visit to a fresh VisitRecord, overwriting any earlier binding
for the same pair. -/
theorem create_bids_fold_merge :
    (∀ (m : Dict BidsCandidate) (img : ImageRecord) (cand : BidsCandidate) (vr : VisitRecord),
      alLookup m img.Candidate = some cand →
      alLookup cand.Visits img.Visit = some vr →
      ∃ m2 cand2 vr2,
        fold_image m img = .ok m2 ∧
        alLookup m2 img.Candidate = some cand2 ∧
        cand2.CandID = cand.CandID ∧
        alLookup cand2.Visits img.Visit = some vr2 ∧
        vr2.Files = vr.Files ∧
        alLookup vr2.Folders img.Subfolder =
          some ((alLookup vr.Folders img.Subfolder).getD [] ++ image_links img)) ∧
    (∀ (m : Dict BidsCandidate) (s : SessionRecord),
      ∃ cand2, alLookup (fold_session m s) s.Candidate = some cand2 ∧
        alLookup cand2.Visits s.Visit = some ⟨[s.TsvLink, s.JsonLink], []⟩) := by
  constructor
  · intro m img cand vr h1 h2
    have hfold : fold_image m img = .ok (alUpdate m img.Candidate
        ⟨cand.CandID, alUpdate cand.Visits img.Visit ⟨vr.Files,
          alUpdate (if (alLookup vr.Folders img.Subfolder).isSome then vr.Folders
              else alUpdate vr.Folders img.Subfolder []) img.Subfolder
            ((alLookup (if (alLookup vr.Folders img.Subfolder).isSome then vr.Folders
              else alUpdate vr.Folders img.Subfolder []) img.Subfolder).getD []
              ++ image_links img)⟩⟩) := by
      simp only [fold_image, h1, h2]
    refine ⟨_, _, _, hfold, alLookup_alUpdate_self m img.Candidate _, rfl,
      alLookup_alUpdate_self cand.Visits img.Visit _, rfl, ?_⟩
    rw [alLookup_alUpdate_self]
    cases hf : alLookup vr.Folders img.Subfolder with
    | none => simp [hf, alLookup_alUpdate_self]
    | some l => simp [hf]
  · intro m s
    cases hc : alLookup m s.Candidate with
    | none =>
      refine ⟨⟨s.Candidate, [(s.Visit, ⟨[s.TsvLink, s.JsonLink], []⟩)]⟩, ?_, ?_⟩
      · simp only [fold_session, hc]
        exact alLookup_alUpdate_self m s.Candidate _
      · simp [alLookup]
    | some cand =>
      refine ⟨⟨cand.CandID, alUpdate cand.Visits s.Visit ⟨[s.TsvLink, s.JsonLink], []⟩⟩, ?_, ?_⟩
      · simp only [fold_session, hc]
        exact alLookup_alUpdate_self m s.Candidate _
      · exact alLookup_alUpdate_self cand.Visits s.Visit _

/-- C3 amended, witness: an image record for a pair whose category already
holds one file reference: the result accumulates both references while
keeping the Files list. -/
theorem create_bids_fold_merge_witness :
    ∃ m2 cand2 vr2,
      fold_image [("100", ⟨"100", [("V1", ⟨["t.tsv", "t.json"], [("anat", ["x.nii"])]⟩)]⟩)]
          ⟨"100", "V1", "anat", [("Candidate", "100"), ("Visit", "V1"),
            ("Subfolder", "anat"), ("NiftiLink", "y.nii")]⟩ = .ok m2 ∧
      alLookup m2 "100" = some cand2 ∧
      cand2.CandID = "100" ∧
      alLookup cand2.Visits "V1" = some vr2 ∧
      vr2.Files = ["t.tsv", "t.json"] ∧
      alLookup vr2.Folders "anat" = some ["x.nii", "y.nii"] :=
  create_bids_fold_merge.1
    [("100", ⟨"100", [("V1", ⟨["t.tsv", "t.json"], [("anat", ["x.nii"])]⟩)]⟩)]
    ⟨"100", "V1", "anat", [("Candidate", "100"), ("Visit", "V1"),
      ("Subfolder", "anat"), ("NiftiLink", "y.nii")]⟩
    ⟨"100", [("V1", ⟨["t.tsv", "t.json"], [("anat", ["x.nii"])]⟩)]⟩
    ⟨["t.tsv", "t.json"], [("anat", ["x.nii"])]⟩
    rfl rfl

/-- Outcome of the orchestrator's filter step: terminate with an exit code
before any entity is dispatched, or dispatch the given entities to
materialization. -/
inductive RunOutcome where
  | exit (code : Nat)
  | dispatch (cands : List Int)
deriving Repr, DecidableEq

/-- The orchestrator's candidate-filter step (BHD.py lines 711-721): when
the requested-identifier list is non-empty, keep only candidates whose id
is in it; if that leaves nothing while identifiers were requested, print a
descriptive error and exit with code 2 before any entity is dispatched (so
no materialization, hence no directory creation, happens); otherwise
dispatch the remaining candidates. -/
def run_dispatch (candidates specified : List Int) : RunOutcome :=
  let candidates1 :=
    if !specified.isEmpty then candidates.filter (fun c => decide (c ∈ specified))
    else candidates
  if candidates1.isEmpty && !specified.isEmpty then .exit 2 else .dispatch candidates1

/-- C8: a non-empty requested-identifier filter that matches zero
candidates makes the run exit with code 2 and dispatch nothing. -/
theorem run_dispatch_empty_filter_exit2 :
    ∀ (candidates specified : List Int),
      specified ≠ [] →
      (∀ c ∈ candidates, c ∉ specified) →
      run_dispatch candidates specified = .exit 2 ∧
      ∀ ds, run_dispatch candidates specified ≠ .dispatch ds := by
  intro candidates specified h1 h2
  have hne : specified.isEmpty = false := by
    cases specified with
    | nil => exact absurd rfl h1
    | cons a l => rfl
  have hfil : candidates.filter (fun c => decide (c ∈ specified)) = [] := by
    apply List.filter_eq_nil_iff.mpr
    intro c hc
    simpa using h2 c hc
  have hmain : run_dispatch candidates specified = .exit 2 := by
    simp [run_dispatch, hne, hfil]
  exact ⟨hmain, fun ds hds => by rw [hmain] at hds; exact absurd hds (by simp)⟩

/-- C8 witness: the spec scenario — filter [9999998] against a manifest
holding only candidate 1234567. -/
theorem run_dispatch_empty_filter_exit2_witness :
    run_dispatch [1234567] [9999998] = .exit 2 ∧
    ∀ ds, run_dispatch [1234567] [9999998] ≠ .dispatch ds :=
  run_dispatch_empty_filter_exit2 [1234567] [9999998] (by decide) (by decide)

/-- The CLI CandID argument checker (BHD.py lines 582-600). The `int()`
conversion of the raw argument is modelled by the `Option Int` input:
`none` is a raw value whose conversion raises ValueError, turned into an
ArgumentTypeError; a converted value is rejected when it is ≥ 9999999 or
≤ 1000000, and returned unchanged otherwise. -/
def candidate_argument_checker (candID : Option Int) : Except String Int :=
  match candID with
  | none => .error "Invalid type for the CandID number. Use strings or ints without commas."
  | some n =>
    if n ≥ 9999999 ∨ n ≤ 1000000 then .error "Invalid CandID number."
    else .ok n

/-- C10: the checker accepts exactly the integers n with 1000000 < n <
9999999, returning n itself; every non-integer input and every integer
outside the open range — the boundary values 1000000 and 9999999 included —
is rejected with an argument-type error. -/
theorem candidate_argument_checker_range :
    (∀ n : Int, 1000000 < n → n < 9999999 →
      candidate_argument_checker (some n) = .ok n) ∧
    (∀ n m : Int, candidate_argument_checker (some n) = .ok m →
      m = n ∧ 1000000 < n ∧ n < 9999999) ∧
    (∀ n : Int, n ≤ 1000000 ∨ 9999999 ≤ n →
      candidate_argument_checker (some n) = .error "Invalid CandID number.") ∧
    candidate_argument_checker none =
      .error "Invalid type for the CandID number. Use strings or ints without commas." ∧
    candidate_argument_checker (some 1000000) = .error "Invalid CandID number." ∧
    candidate_argument_checker (some 9999999) = .error "Invalid CandID number." := by
  refine ⟨?_, ?_, ?_, rfl, rfl, rfl⟩
  · intro n hlo hhi
    have h : ¬(n ≥ 9999999 ∨ n ≤ 1000000) := by omega
    simp [candidate_argument_checker, h]
  · intro n m h
    by_cases hc : n ≥ 9999999 ∨ n ≤ 1000000
    · simp [candidate_argument_checker, hc] at h
    · simp [candidate_argument_checker, hc] at h
      refine ⟨h.symm, by omega, by omega⟩
  · intro n hn
    have h : n ≥ 9999999 ∨ n ≤ 1000000 := by omega
    simp [candidate_argument_checker, h]

/-- C10 witness: 1234567 is accepted and returned; 1000000 is rejected. -/
theorem candidate_argument_checker_range_witness :
    candidate_argument_checker (some 1234567) = .ok 1234567 ∧
    candidate_argument_checker (some 1000000) = .error "Invalid CandID number." :=
  ⟨candidate_argument_checker_range.1 1234567 (by decide) (by decide),
    candidate_argument_checker_range.2.2.1 1000000 (Or.inl (by decide))⟩
